import Mathlib

/-!
A shallow embedding of `axescache.py`.

The module provides two classes:

* `RenderCapture`: given an axes and a renderer, extracts the RGBA frame
  buffer, crops it to a rectangle inset 5 pixels from the device-coordinate
  corners of the view bounds, and builds two drawable representations
  (an image with a data-space extent, and a pcolormesh addressed by the
  derived data-space coordinate arrays).
* `AxesCache`: intercepts `Axes.draw`; on a miss it performs the full draw
  and stores a `RenderCapture`; on a hit it draws the patch, the capture,
  both axis artists and the spines; `reset` clears the slot, and a
  button-release event triggers `reset`.

Machine reals are modelled as rationals; numpy integer truncation
(`astype(int)`) truncates toward zero.  Python exceptions are modelled with
`Except` / explicit error fields.  The data-to-device transform of the axes
is per-coordinate (matplotlib's `transData` is a blended per-axis
transform), modelled as the four functions `fx fy gx gy`.
-/

/-- numpy `astype(int)` on a rational: truncation toward zero. -/
def truncInt (q : ℚ) : ℤ := if 0 ≤ q then ⌊q⌋ else ⌈q⌉

/-- `np.arange(a, b)` for integers: `[a, a+1, ..., b-1]`, empty if `b ≤ a`. -/
def arangeZ (a b : ℤ) : List ℤ :=
  (List.range (b - a).toNat).map (fun (i : ℕ) => a + (i : ℤ))

/-- Resolution of a Python slice endpoint against a list length:
negative indices count from the end, and endpoints are clamped. -/
def pySliceIdx (len : ℕ) (i : ℤ) : ℕ :=
  if i < 0 then ((len : ℤ) + i).toNat else min i.toNat len

/-- Python list slicing `l[a : b]` (also numpy basic slicing along one axis). -/
def pySlice {α : Type} (l : List α) (a b : ℤ) : List α :=
  (l.take (pySliceIdx l.length b)).drop (pySliceIdx l.length a)

/-- One RGBA pixel of the frame buffer. -/
structure Pixel where
  r : ℕ
  g : ℕ
  b : ℕ
  a : ℕ
  deriving DecidableEq, Repr

/-- The render backend handle: device pixel dimensions and the raw byte
buffer returned by `renderer.buffer_rgba()`. -/
structure Renderer where
  width : ℕ
  height : ℕ
  buffer : List ℕ
  deriving DecidableEq, Repr

/-- The mesh artist produced by `axes.pcolormesh(dx, dy[::-1], im[:, :, 0])`.
`id` models Python object identity (artists compare by identity). -/
structure Mesh where
  id : ℕ
  xs : List ℚ
  ys : List ℚ
  values : List (List ℕ)
  deriving DecidableEq, Repr

/-- The captured frame: the mesh artist, the cropped image data given to the
`AxesImage`, and the data-space extent `(dx[0], dx[-1], dy[0], dy[-1])`. -/
structure RenderCapture where
  mesh : Mesh
  imData : List (List Pixel)
  extent : ℚ × ℚ × ℚ × ℚ
  deriving DecidableEq, Repr

/-- The matplotlib axes, as seen by this module: view limits, the
per-coordinate data-to-device transform (`fx`, `fy`) and its inverse
(`gx`, `gy`), the scale modes, the artist collections (by identity id,
with `nextId` the id the next created artist receives), and the spines. -/
structure PyAxes where
  xlim : ℚ × ℚ
  ylim : ℚ × ℚ
  fx : ℚ → ℚ
  fy : ℚ → ℚ
  gx : ℚ → ℚ
  gy : ℚ → ℚ
  xscale : String
  yscale : String
  collections : List ℕ
  nextId : ℕ
  spines : List String

/-- The four arrays returned by `RenderCapture._get_corners`. -/
structure Corners where
  px : List ℤ
  py : List ℤ
  dx : List ℚ
  dy : List ℚ

/-- `RenderCapture._get_corners`: transform the view-bound corners to device
coordinates, truncate to int, inset by 5 pixels on each side, and derive the
per-column/per-row device and data coordinate arrays. -/
def RenderCapture.get_corners (axes : PyAxes) : Corners :=
  let c0x := truncInt (axes.fx axes.xlim.1) + 5
  let c0y := truncInt (axes.fy axes.ylim.1) + 5
  let c1x := truncInt (axes.fx axes.xlim.2) - 5
  let c1y := truncInt (axes.fy axes.ylim.2) - 5
  let px := arangeZ c0x c1x
  let py := arangeZ c0y c1y
  ⟨px, py, px.map (fun (p : ℤ) => axes.gx ((p : ℚ))),
   py.map (fun (p : ℤ) => axes.gy ((p : ℚ)))⟩

/-- Byte-group `k` of the flat RGBA buffer as a pixel
(`reshape((h, w, 4))` places pixel `(i, j)` at flat group `i*w + j`). -/
def pixelAt (buf : List ℕ) (k : ℕ) : Pixel :=
  ⟨buf.getD (4 * k) 0, buf.getD (4 * k + 1) 0,
   buf.getD (4 * k + 2) 0, buf.getD (4 * k + 3) 0⟩

/-- `RenderCapture.extract_image`: reinterpret the flat byte buffer as a
`height × width × 4` array; `none` when the buffer size does not match
(numpy `reshape` raises). -/
def RenderCapture.extract_image (r : Renderer) : Option (List (List Pixel)) :=
  if r.buffer.length = r.height * r.width * 4 then
    some ((List.range r.height).map (fun i =>
      (List.range r.width).map (fun j => pixelAt r.buffer (i * r.width + j))))
  else none

/-- Python exceptions that can escape the drawing code. -/
inductive PyErr
  | hostDrawError
  | valueError
  | indexError
  deriving DecidableEq, Repr

/-- `RenderCapture.__init__`: extract the buffer, crop it to the inset
rectangle (`im[py[0] : py[-1]+1, px[0] : px[-1]+1, :]`), build and
immediately remove the pcolormesh artist, and set up the `AxesImage` data
and extent.  Indexing `py[0]` / `px[0]` on an empty array raises
`IndexError`; the axes is returned updated (collections, fresh-id counter). -/
def RenderCapture.init (axes : PyAxes) (r : Renderer) :
    Except PyErr (RenderCapture × PyAxes) :=
  match RenderCapture.extract_image r with
  | none => .error .valueError
  | some im =>
    match (RenderCapture.get_corners axes).py.head?,
          (RenderCapture.get_corners axes).py.getLast?,
          (RenderCapture.get_corners axes).px.head?,
          (RenderCapture.get_corners axes).px.getLast? with
    | some py0, some pyl, some px0, some pxl =>
      let im2 := (pySlice im py0 (pyl + 1)).map (fun row => pySlice row px0 (pxl + 1))
      let mesh : Mesh :=
        ⟨axes.nextId, (RenderCapture.get_corners axes).dx,
         (RenderCapture.get_corners axes).dy.reverse,
         im2.map (fun row => row.map Pixel.r)⟩
      let axes' : PyAxes :=
        { axes with
            collections := (axes.collections ++ [mesh.id]).erase mesh.id,
            nextId := axes.nextId + 1 }
      match (RenderCapture.get_corners axes).dx.head?,
            (RenderCapture.get_corners axes).dx.getLast?,
            (RenderCapture.get_corners axes).dy.head?,
            (RenderCapture.get_corners axes).dy.getLast? with
      | some dx0, some dxl, some dy0, some dyl =>
        .ok (⟨mesh, im2, (dx0, dxl, dy0, dyl)⟩, axes')
      | _, _, _, _ => .error .indexError
    | _, _, _, _ => .error .indexError

/-- What a draw pass renders, in order. -/
inductive DrawEvent
  | fullDraw
  | patch
  | capImage
  | capMesh
  | xaxisDraw
  | yaxisDraw
  | spineDraw (name : String)
  deriving DecidableEq, Repr

/-- `RenderCapture.draw`: image path when both current scales are linear,
mesh path otherwise; the choice reads the live axes at call time. -/
def RenderCapture.draw (axes : PyAxes) (_cap : RenderCapture) : DrawEvent :=
  if axes.xscale = "linear" ∧ axes.yscale = "linear" then .capImage else .capMesh

/-- Outcome of the host's expensive `Axes.draw` on this call: a renderer
whose buffer now holds the full render, or a raised exception. -/
inductive FullDrawOutcome
  | ok (r : Renderer)
  | raises
  deriving DecidableEq, Repr

/-- Result of one `AxesCache.draw` call: the cache slot afterwards, the
axes afterwards, what was rendered, and the escaped exception if any. -/
structure DrawResult where
  slot : Option RenderCapture
  axesAfter : PyAxes
  trace : List DrawEvent
  err : Option PyErr

/-- `AxesCache.draw`: on an empty slot perform the full draw and then
construct and store a `RenderCapture`; on a filled slot draw the patch, the
capture, the x axis, the y axis, and every spine. -/
def AxesCache.draw (axes : PyAxes) (fd : FullDrawOutcome)
    (slot : Option RenderCapture) : DrawResult :=
  match slot with
  | none =>
    match fd with
    | .raises => ⟨none, axes, [.fullDraw], some .hostDrawError⟩
    | .ok r =>
      match RenderCapture.init axes r with
      | .error e => ⟨none, axes, [.fullDraw], some e⟩
      | .ok ca => ⟨some ca.1, ca.2, [.fullDraw], none⟩
  | some cap =>
    ⟨some cap, axes,
     [.patch, RenderCapture.draw axes cap, .xaxisDraw, .yaxisDraw] ++
       axes.spines.map (fun s => .spineDraw s),
     none⟩

/-- `AxesCache.reset`: `self.overview_img = None`. -/
def AxesCache.reset (_slot : Option RenderCapture) : Option RenderCapture := none

/-- The `button_release_event` handler installed by `refresh_on_mouseup`:
`lambda e: self.reset()`. -/
def AxesCache.onButtonRelease (_e : Unit) (slot : Option RenderCapture) :
    Option RenderCapture :=
  AxesCache.reset slot

/-- The cache slot after `n` consecutive `AxesCache.draw` calls with the
same axes and full-draw outcome. -/
def AxesCache.drawIter (axes : PyAxes) (fd : FullDrawOutcome) :
    ℕ → Option RenderCapture → Option RenderCapture
  | 0, slot => slot
  | n + 1, slot => AxesCache.drawIter axes fd n (AxesCache.draw axes fd slot).slot

/-! ### Concrete instances used by witnesses -/

/-- A 12×12-pixel view with the identity transform and linear scales. -/
def demoAxes : PyAxes :=
  { xlim := (0, 12), ylim := (0, 12)
    fx := fun q => q, fy := fun q => q
    gx := fun q => q, gy := fun q => q
    xscale := "linear", yscale := "linear"
    collections := [], nextId := 0
    spines := ["left", "bottom"] }

/-- A 12×12 renderer with a correctly sized (all-zero) RGBA buffer. -/
def demoRenderer : Renderer := ⟨12, 12, List.replicate (12 * 12 * 4) 0⟩

/-- A minimal captured frame for exercising the hit path. -/
def demoCap : RenderCapture := ⟨⟨0, [], [], []⟩, [], (0, 0, 0, 0)⟩

/-- Degenerate view bounds: a 4×4-pixel span, whose 5-pixel inset is empty. -/
def demoDegenAxes : PyAxes := { demoAxes with xlim := (0, 4), ylim := (0, 4) }

/-- A 4×4 renderer matching `demoDegenAxes`. -/
def demoDegenRenderer : Renderer := ⟨4, 4, List.replicate (4 * 4 * 4) 0⟩

set_option maxRecDepth 40000

/-! ### Helper lemmas -/

theorem arangeZ_length (a b : ℤ) : (arangeZ a b).length = (b - a).toNat := by
  rw [arangeZ, List.length_map, List.length_range]

theorem arangeZ_head (a b : ℤ) (h : a < b) : (arangeZ a b).head? = some a := by
  have hn : (b - a).toNat = ((b - a).toNat - 1) + 1 := by omega
  rw [arangeZ, hn, List.range_succ_eq_map, List.map_cons, List.head?_cons]
  simp

theorem arangeZ_getLast (a b : ℤ) (h : a < b) :
    (arangeZ a b).getLast? = some (b - 1) := by
  have hn : (b - a).toNat = ((b - a).toNat - 1) + 1 := by omega
  rw [arangeZ, hn, List.range_succ, List.map_append]
  simp only [List.map_cons, List.map_nil]
  rw [List.getLast?_concat]
  congr 1
  omega

theorem pySliceIdx_eq (len : ℕ) (i : ℤ) (h0 : 0 ≤ i) (h : i ≤ (len : ℤ)) :
    pySliceIdx len i = i.toNat := by
  rw [pySliceIdx, if_neg (by omega)]
  exact Nat.min_eq_left (by omega)

theorem pySlice_length {α : Type} (l : List α) (a b : ℤ) (h0 : 0 ≤ a) (hab : a ≤ b)
    (hb : b ≤ (l.length : ℤ)) :
    (pySlice l a b).length = (b - a).toNat := by
  rw [pySlice, pySliceIdx_eq _ _ (le_trans h0 hab) hb,
    pySliceIdx_eq _ _ h0 (le_trans hab hb)]
  rw [List.length_drop, List.length_take]
  omega

theorem pySlice_subset {α : Type} (l : List α) (a b : ℤ) : pySlice l a b ⊆ l :=
  fun _x hx => List.take_subset _ _ (List.drop_subset _ _ hx)

theorem extract_image_eq (r : Renderer) (h : r.buffer.length = r.height * r.width * 4) :
    RenderCapture.extract_image r =
      some ((List.range r.height).map (fun i =>
        (List.range r.width).map (fun j => pixelAt r.buffer (i * r.width + j)))) := by
  rw [RenderCapture.extract_image, if_pos h]

theorem extract_image_shape (r : Renderer) (im : List (List Pixel))
    (h : RenderCapture.extract_image r = some im) :
    im.length = r.height ∧ ∀ row ∈ im, row.length = r.width := by
  rw [RenderCapture.extract_image] at h
  split at h
  · have him := Option.some.inj h
    subst him
    refine ⟨by simp, ?_⟩
    intro row hrow
    rw [List.mem_map] at hrow
    obtain ⟨i, _, rfl⟩ := hrow
    simp
  · cases h

theorem get_corners_px (axes : PyAxes) :
    (RenderCapture.get_corners axes).px =
      arangeZ (truncInt (axes.fx axes.xlim.1) + 5)
        (truncInt (axes.fx axes.xlim.2) - 5) := rfl

theorem get_corners_py (axes : PyAxes) :
    (RenderCapture.get_corners axes).py =
      arangeZ (truncInt (axes.fy axes.ylim.1) + 5)
        (truncInt (axes.fy axes.ylim.2) - 5) := rfl

theorem get_corners_dx (axes : PyAxes) :
    (RenderCapture.get_corners axes).dx =
      (RenderCapture.get_corners axes).px.map (fun (p : ℤ) => axes.gx ((p : ℚ))) := rfl

theorem get_corners_dy (axes : PyAxes) :
    (RenderCapture.get_corners axes).dy =
      (RenderCapture.get_corners axes).py.map (fun (p : ℤ) => axes.gy ((p : ℚ))) := rfl

/-- Full characterization of a successful `RenderCapture.init`:
given the buffer extraction and nonempty inset coordinate arrays, the
constructor returns exactly the cropped image, the (removed) mesh, the
extent, and the updated axes. -/
theorem RenderCapture.init_eq (axes : PyAxes) (r : Renderer) (im : List (List Pixel))
    (py0 pyl px0 pxl : ℤ)
    (him : RenderCapture.extract_image r = some im)
    (hpy0 : (RenderCapture.get_corners axes).py.head? = some py0)
    (hpyl : (RenderCapture.get_corners axes).py.getLast? = some pyl)
    (hpx0 : (RenderCapture.get_corners axes).px.head? = some px0)
    (hpxl : (RenderCapture.get_corners axes).px.getLast? = some pxl) :
    RenderCapture.init axes r = .ok
      (⟨⟨axes.nextId, (RenderCapture.get_corners axes).dx,
         (RenderCapture.get_corners axes).dy.reverse,
         ((pySlice im py0 (pyl + 1)).map (fun row => pySlice row px0 (pxl + 1))).map
           (fun row => row.map Pixel.r)⟩,
        (pySlice im py0 (pyl + 1)).map (fun row => pySlice row px0 (pxl + 1)),
        (axes.gx ((px0 : ℚ)), axes.gx ((pxl : ℚ)),
         axes.gy ((py0 : ℚ)), axes.gy ((pyl : ℚ)))⟩,
       { axes with
           collections := (axes.collections ++ [axes.nextId]).erase axes.nextId,
           nextId := axes.nextId + 1 }) := by
  have hdx0 : (RenderCapture.get_corners axes).dx.head? = some (axes.gx ((px0 : ℚ))) := by
    rw [get_corners_dx, List.head?_map, hpx0]
    rfl
  have hdxl : (RenderCapture.get_corners axes).dx.getLast? = some (axes.gx ((pxl : ℚ))) := by
    rw [get_corners_dx, List.getLast?_map, hpxl]
    rfl
  have hdy0 : (RenderCapture.get_corners axes).dy.head? = some (axes.gy ((py0 : ℚ))) := by
    rw [get_corners_dy, List.head?_map, hpy0]
    rfl
  have hdyl : (RenderCapture.get_corners axes).dy.getLast? = some (axes.gy ((pyl : ℚ))) := by
    rw [get_corners_dy, List.getLast?_map, hpyl]
    rfl
  unfold RenderCapture.init
  rw [him]
  simp only [hpy0, hpyl, hpx0, hpxl, hdx0, hdxl, hdy0, hdyl]

theorem fullDraw_notin_hit (axes : PyAxes) (fd : FullDrawOutcome) (c : RenderCapture) :
    DrawEvent.fullDraw ∉ (AxesCache.draw axes fd (some c)).trace := by
  intro hmem
  by_cases hsc : (axes.xscale = "linear" ∧ axes.yscale = "linear") <;>
    simp [AxesCache.draw, RenderCapture.draw, hsc] at hmem

/-! ### The claims -/

/-- C1: on a draw request with an empty cache slot, the full draw routine is
invoked exactly once and afterwards the slot holds the newly constructed
captured frame; on a draw request with a filled slot, the full draw routine
is not invoked at all and the slot keeps its frame. -/
theorem claim1_miss_fills_hit_skips (axes : PyAxes) (r : Renderer)
    (fd : FullDrawOutcome) (c : RenderCapture)
    (h : (RenderCapture.init axes r).isOk = true) :
    ((AxesCache.draw axes (.ok r) none).trace.count .fullDraw = 1 ∧
      ∃ ca, RenderCapture.init axes r = .ok ca ∧
        (AxesCache.draw axes (.ok r) none).slot = some ca.1) ∧
    ((AxesCache.draw axes fd (some c)).trace.count .fullDraw = 0 ∧
      (AxesCache.draw axes fd (some c)).slot = some c) := by
  refine ⟨?_, List.count_eq_zero.mpr (fullDraw_notin_hit axes fd c), rfl⟩
  cases hinit : RenderCapture.init axes r with
  | error e => rw [hinit] at h; cases h
  | ok ca =>
    refine ⟨?_, ca, rfl, ?_⟩ <;> simp [AxesCache.draw, hinit]

/-- C3 (evaluation at the failing input): with degenerate view bounds the
draw performs the full draw, then capture construction raises `IndexError`
(indexing the empty inset coordinate array); nothing is detected beforehand
and no frame is stored. -/
theorem claim3_degenerate_bounds_raise :
    (AxesCache.draw demoDegenAxes (.ok demoDegenRenderer) none).trace = [.fullDraw] ∧
    (AxesCache.draw demoDegenAxes (.ok demoDegenRenderer) none).err = some .indexError ∧
    (AxesCache.draw demoDegenAxes (.ok demoDegenRenderer) none).slot = none := by
  refine ⟨by decide, by decide, by decide⟩

/-- C4: a captured frame draws its image representation iff both current
axis scales are linear, and its mesh representation otherwise; the choice
reads only the live axes state, never the capture, so it is re-evaluated
at every call. -/
theorem claim4_scale_mode_branching (axes : PyAxes) (cap cap' : RenderCapture) :
    (RenderCapture.draw axes cap = .capImage ↔
      (axes.xscale = "linear" ∧ axes.yscale = "linear")) ∧
    (RenderCapture.draw axes cap = .capMesh ↔
      ¬ (axes.xscale = "linear" ∧ axes.yscale = "linear")) ∧
    RenderCapture.draw axes cap = RenderCapture.draw axes cap' := by
  by_cases h : (axes.xscale = "linear" ∧ axes.yscale = "linear") <;>
    simp [RenderCapture.draw, h]

/-- C5: reset always yields the empty slot, is idempotent, is what the
button-release handler performs, and the first draw after a reset performs
the full draw (cache miss). -/
theorem claim5_reset_idempotent (slot slot' : Option RenderCapture) (e : Unit)
    (axes : PyAxes) (fd : FullDrawOutcome) :
    AxesCache.reset slot = none ∧
    AxesCache.reset (AxesCache.reset slot) = none ∧
    AxesCache.onButtonRelease e slot' = none ∧
    (AxesCache.draw axes fd (AxesCache.reset slot)).trace.count .fullDraw = 1 := by
  refine ⟨rfl, rfl, rfl, ?_⟩
  show (AxesCache.draw axes fd none).trace.count _ = 1
  cases fd with
  | raises => simp [AxesCache.draw]
  | ok r => cases hinit : RenderCapture.init axes r <;> simp [AxesCache.draw, hinit]

/-- C6: if the full draw raises during a cache miss, the error propagates
and the slot stays empty; a frame is stored only when the full draw (and
the subsequent capture construction) returned successfully. -/
theorem claim6_full_draw_failure (axes : PyAxes) (fd fd' : FullDrawOutcome)
    (h : fd = .raises) :
    (AxesCache.draw axes fd none).slot = none ∧
    (AxesCache.draw axes fd none).err = some .hostDrawError ∧
    ((AxesCache.draw axes fd' none).slot.isSome = true →
      ∃ r ca, fd' = .ok r ∧ RenderCapture.init axes r = .ok ca ∧
        (AxesCache.draw axes fd' none).slot = some ca.1) := by
  subst h
  refine ⟨rfl, rfl, ?_⟩
  intro hsome
  cases fd' with
  | raises => simp [AxesCache.draw] at hsome
  | ok r =>
    cases hinit : RenderCapture.init axes r with
    | error e => simp [AxesCache.draw, hinit] at hsome
    | ok ca => exact ⟨r, ca, rfl, hinit, by simp [AxesCache.draw, hinit]⟩

/-- C7: a cache-hit draw skips the full draw and renders, in order: the
background patch, the cached frame, the x axis, the y axis, and every
spine; no error escapes. -/
theorem claim7_hit_draw_order (axes : PyAxes) (fd : FullDrawOutcome)
    (slot : Option RenderCapture) (cap : RenderCapture) (h : slot = some cap) :
    (AxesCache.draw axes fd slot).trace =
      .patch :: RenderCapture.draw axes cap :: .xaxisDraw :: .yaxisDraw ::
        axes.spines.map (fun s => .spineDraw s) ∧
    (AxesCache.draw axes fd slot).trace.count .fullDraw = 0 ∧
    (AxesCache.draw axes fd slot).err = none := by
  subst h
  exact ⟨rfl, List.count_eq_zero.mpr (fullDraw_notin_hit axes fd cap), rfl⟩

/-- C9: drawing a captured frame mutates nothing: with a filled slot, one
draw and any number of repeated draws (whichever representation is chosen)
leave the slot holding the identical frame. -/
theorem claim9_draw_no_side_effect (axes : PyAxes) (fd : FullDrawOutcome)
    (n : ℕ) (slot : Option RenderCapture) (cap : RenderCapture)
    (h : slot = some cap) :
    (AxesCache.draw axes fd slot).slot = some cap ∧
    AxesCache.drawIter axes fd n slot = some cap := by
  subst h
  refine ⟨rfl, ?_⟩
  induction n with
  | zero => rfl
  | succ n ih => exact ih

/-- C2: when the view bounds map to a device rectangle of width `x1 - x0`
and height `y1 - y0`, both over 10 pixels and inside the buffer, the inset
coordinate arrays span exactly width−10 columns and height−10 rows, and the
cropped pixel array has exactly those dimensions. -/
theorem claim2_inset_dims (axes : PyAxes) (r : Renderer) (x0 y0 x1 y1 : ℤ)
    (hx0 : truncInt (axes.fx axes.xlim.1) = x0)
    (hy0 : truncInt (axes.fy axes.ylim.1) = y0)
    (hx1 : truncInt (axes.fx axes.xlim.2) = x1)
    (hy1 : truncInt (axes.fy axes.ylim.2) = y1)
    (hW : 10 < x1 - x0) (hH : 10 < y1 - y0)
    (hbuf : r.buffer.length = r.height * r.width * 4)
    (hxlo : 0 ≤ x0 + 5) (hxhi : x1 - 5 ≤ (r.width : ℤ))
    (hylo : 0 ≤ y0 + 5) (hyhi : y1 - 5 ≤ (r.height : ℤ)) :
    (RenderCapture.get_corners axes).px.length = (x1 - x0 - 10).toNat ∧
    (RenderCapture.get_corners axes).py.length = (y1 - y0 - 10).toNat ∧
    ∃ ca, RenderCapture.init axes r = .ok ca ∧
      ca.1.imData.length = (y1 - y0 - 10).toNat ∧
      ∀ row ∈ ca.1.imData, row.length = (x1 - x0 - 10).toNat := by
  have hpx : (RenderCapture.get_corners axes).px = arangeZ (x0 + 5) (x1 - 5) := by
    rw [get_corners_px, hx0, hx1]
  have hpy : (RenderCapture.get_corners axes).py = arangeZ (y0 + 5) (y1 - 5) := by
    rw [get_corners_py, hy0, hy1]
  have hlx : x0 + 5 < x1 - 5 := by omega
  have hly : y0 + 5 < y1 - 5 := by omega
  obtain ⟨im, him⟩ : ∃ im, RenderCapture.extract_image r = some im :=
    ⟨_, extract_image_eq r hbuf⟩
  obtain ⟨himh, himw⟩ := extract_image_shape r im him
  have hpy0 : (RenderCapture.get_corners axes).py.head? = some (y0 + 5) := by
    rw [hpy]
    exact arangeZ_head _ _ hly
  have hpyl : (RenderCapture.get_corners axes).py.getLast? = some (y1 - 6) := by
    rw [hpy, arangeZ_getLast _ _ hly]
    congr 1
    ring
  have hpx0 : (RenderCapture.get_corners axes).px.head? = some (x0 + 5) := by
    rw [hpx]
    exact arangeZ_head _ _ hlx
  have hpxl : (RenderCapture.get_corners axes).px.getLast? = some (x1 - 6) := by
    rw [hpx, arangeZ_getLast _ _ hlx]
    congr 1
    ring
  have hinit := RenderCapture.init_eq axes r im (y0 + 5) (y1 - 6) (x0 + 5) (x1 - 6)
    him hpy0 hpyl hpx0 hpxl
  have hhcast : (im.length : ℤ) = (r.height : ℤ) := by exact_mod_cast himh
  have hrows_len : (pySlice im (y0 + 5) ((y1 - 6) + 1)).length = (y1 - y0 - 10).toNat := by
    rw [pySlice_length _ _ _ hylo (by omega) (by omega)]
    omega
  refine ⟨by rw [hpx, arangeZ_length]; omega,
          by rw [hpy, arangeZ_length]; omega,
          _, hinit, ?_, ?_⟩
  · show ((pySlice im (y0 + 5) ((y1 - 6) + 1)).map
      (fun row => pySlice row (x0 + 5) ((x1 - 6) + 1))).length = _
    rw [List.length_map, hrows_len]
  · intro row hrow
    replace hrow : row ∈ (pySlice im (y0 + 5) ((y1 - 6) + 1)).map
        (fun row => pySlice row (x0 + 5) ((x1 - 6) + 1)) := hrow
    rw [List.mem_map] at hrow
    obtain ⟨row', hrow', rfl⟩ := hrow
    have hw : row'.length = r.width := himw row' (pySlice_subset im _ _ hrow')
    have hwcast : (row'.length : ℤ) = (r.width : ℤ) := by exact_mod_cast hw
    rw [pySlice_length _ _ _ hxlo (by omega) (by omega)]
    omega

/-- C8: the data-space extent stored by a successful capture, mapped back
through the data-to-device transform active at capture time, reproduces
the inset rectangle's device corners to within one pixel per coordinate. -/
theorem claim8_extent_fidelity (axes : PyAxes) (r : Renderer) (x0 y0 x1 y1 : ℤ)
    (hx0 : truncInt (axes.fx axes.xlim.1) = x0)
    (hy0 : truncInt (axes.fy axes.ylim.1) = y0)
    (hx1 : truncInt (axes.fx axes.xlim.2) = x1)
    (hy1 : truncInt (axes.fy axes.ylim.2) = y1)
    (hW : 10 < x1 - x0) (hH : 10 < y1 - y0)
    (hbuf : r.buffer.length = r.height * r.width * 4)
    (hgx0 : axes.fx (axes.gx ((x0 + 5 : ℤ) : ℚ)) = ((x0 + 5 : ℤ) : ℚ))
    (hgxl : axes.fx (axes.gx ((x1 - 6 : ℤ) : ℚ)) = ((x1 - 6 : ℤ) : ℚ))
    (hgy0 : axes.fy (axes.gy ((y0 + 5 : ℤ) : ℚ)) = ((y0 + 5 : ℤ) : ℚ))
    (hgyl : axes.fy (axes.gy ((y1 - 6 : ℤ) : ℚ)) = ((y1 - 6 : ℤ) : ℚ)) :
    ∃ ca, RenderCapture.init axes r = .ok ca ∧
      |axes.fx ca.1.extent.1 - ((x0 + 5 : ℤ) : ℚ)| ≤ 1 ∧
      |axes.fx ca.1.extent.2.1 - ((x1 - 5 : ℤ) : ℚ)| ≤ 1 ∧
      |axes.fy ca.1.extent.2.2.1 - ((y0 + 5 : ℤ) : ℚ)| ≤ 1 ∧
      |axes.fy ca.1.extent.2.2.2 - ((y1 - 5 : ℤ) : ℚ)| ≤ 1 := by
  have hpx : (RenderCapture.get_corners axes).px = arangeZ (x0 + 5) (x1 - 5) := by
    rw [get_corners_px, hx0, hx1]
  have hpy : (RenderCapture.get_corners axes).py = arangeZ (y0 + 5) (y1 - 5) := by
    rw [get_corners_py, hy0, hy1]
  have hlx : x0 + 5 < x1 - 5 := by omega
  have hly : y0 + 5 < y1 - 5 := by omega
  obtain ⟨im, him⟩ : ∃ im, RenderCapture.extract_image r = some im :=
    ⟨_, extract_image_eq r hbuf⟩
  have hpy0 : (RenderCapture.get_corners axes).py.head? = some (y0 + 5) := by
    rw [hpy]
    exact arangeZ_head _ _ hly
  have hpyl : (RenderCapture.get_corners axes).py.getLast? = some (y1 - 6) := by
    rw [hpy, arangeZ_getLast _ _ hly]
    congr 1
    ring
  have hpx0 : (RenderCapture.get_corners axes).px.head? = some (x0 + 5) := by
    rw [hpx]
    exact arangeZ_head _ _ hlx
  have hpxl : (RenderCapture.get_corners axes).px.getLast? = some (x1 - 6) := by
    rw [hpx, arangeZ_getLast _ _ hlx]
    congr 1
    ring
  have hinit := RenderCapture.init_eq axes r im (y0 + 5) (y1 - 6) (x0 + 5) (x1 - 6)
    him hpy0 hpyl hpx0 hpxl
  refine ⟨_, hinit, ?_, ?_, ?_, ?_⟩
  · show |axes.fx (axes.gx ((x0 + 5 : ℤ) : ℚ)) - ((x0 + 5 : ℤ) : ℚ)| ≤ 1
    rw [hgx0, sub_self, abs_zero]
    norm_num
  · show |axes.fx (axes.gx ((x1 - 6 : ℤ) : ℚ)) - ((x1 - 5 : ℤ) : ℚ)| ≤ 1
    rw [hgxl, show ((x1 - 6 : ℤ) : ℚ) - ((x1 - 5 : ℤ) : ℚ) = -1 by push_cast; ring]
    norm_num
  · show |axes.fy (axes.gy ((y0 + 5 : ℤ) : ℚ)) - ((y0 + 5 : ℤ) : ℚ)| ≤ 1
    rw [hgy0, sub_self, abs_zero]
    norm_num
  · show |axes.fy (axes.gy ((y1 - 6 : ℤ) : ℚ)) - ((y1 - 5 : ℤ) : ℚ)| ≤ 1
    rw [hgyl, show ((y1 - 6 : ℤ) : ℚ) - ((y1 - 5 : ℤ) : ℚ) = -1 by push_cast; ring]
    norm_num

/-- C10: constructing a captured frame leaves the axes' artist collections
unchanged: the pcolormesh artist created during construction (which carries
the fresh artist id) is removed from the collections before the constructor
returns. -/
theorem claim10_collections_unchanged (axes : PyAxes) (r : Renderer)
    (hfresh : axes.nextId ∉ axes.collections)
    (h : (RenderCapture.init axes r).isOk = true) :
    ∃ ca, RenderCapture.init axes r = .ok ca ∧
      ca.1.mesh.id = axes.nextId ∧
      ca.2.collections = axes.collections := by
  cases hinit : RenderCapture.init axes r with
  | error e => rw [hinit] at h; cases h
  | ok ca =>
    have hca : ca.1.mesh.id = axes.nextId ∧
        ca.2.collections = (axes.collections ++ [axes.nextId]).erase axes.nextId := by
      unfold RenderCapture.init at hinit
      split at hinit
      · cases hinit
      · split at hinit
        · split at hinit
          · cases hinit
            exact ⟨rfl, rfl⟩
          · cases hinit
        · cases hinit
    refine ⟨ca, rfl, hca.1, ?_⟩
    rw [hca.2, List.erase_append_right _ hfresh, List.erase_cons_head, List.append_nil]

/-! ### Witnesses -/

theorem claim2_witness :
    (RenderCapture.get_corners demoAxes).px.length = ((12 : ℤ) - (0 : ℤ) - 10).toNat ∧
    (RenderCapture.get_corners demoAxes).py.length = ((12 : ℤ) - (0 : ℤ) - 10).toNat ∧
    ∃ ca, RenderCapture.init demoAxes demoRenderer = .ok ca ∧
      ca.1.imData.length = ((12 : ℤ) - (0 : ℤ) - 10).toNat ∧
      ∀ row ∈ ca.1.imData, row.length = ((12 : ℤ) - (0 : ℤ) - 10).toNat :=
  claim2_inset_dims demoAxes demoRenderer 0 0 12 12 (by decide) (by decide) (by decide)
    (by decide) (by decide) (by decide) (by decide) (by decide) (by decide) (by decide)
    (by decide)

theorem claim8_witness :
    ∃ ca, RenderCapture.init demoAxes demoRenderer = .ok ca ∧
      |demoAxes.fx ca.1.extent.1 - (((0 : ℤ) + 5 : ℤ) : ℚ)| ≤ 1 ∧
      |demoAxes.fx ca.1.extent.2.1 - (((12 : ℤ) - 5 : ℤ) : ℚ)| ≤ 1 ∧
      |demoAxes.fy ca.1.extent.2.2.1 - (((0 : ℤ) + 5 : ℤ) : ℚ)| ≤ 1 ∧
      |demoAxes.fy ca.1.extent.2.2.2 - (((12 : ℤ) - 5 : ℤ) : ℚ)| ≤ 1 :=
  claim8_extent_fidelity demoAxes demoRenderer 0 0 12 12 (by decide) (by decide)
    (by decide) (by decide) (by decide) (by decide) (by decide) (by decide) (by decide)
    (by decide) (by decide)

theorem claim10_witness :
    ∃ ca, RenderCapture.init demoAxes demoRenderer = .ok ca ∧
      ca.1.mesh.id = demoAxes.nextId ∧
      ca.2.collections = demoAxes.collections :=
  claim10_collections_unchanged demoAxes demoRenderer (by decide) (by decide)

theorem claim1_witness :
    ((AxesCache.draw demoAxes (.ok demoRenderer) none).trace.count .fullDraw = 1 ∧
      ∃ ca, RenderCapture.init demoAxes demoRenderer = .ok ca ∧
        (AxesCache.draw demoAxes (.ok demoRenderer) none).slot = some ca.1) ∧
    ((AxesCache.draw demoAxes .raises (some demoCap)).trace.count .fullDraw = 0 ∧
      (AxesCache.draw demoAxes .raises (some demoCap)).slot = some demoCap) :=
  claim1_miss_fills_hit_skips demoAxes demoRenderer .raises demoCap (by decide)

theorem claim6_witness :
    (AxesCache.draw demoAxes .raises none).slot = none ∧
    (AxesCache.draw demoAxes .raises none).err = some .hostDrawError ∧
    ((AxesCache.draw demoAxes (.ok demoRenderer) none).slot.isSome = true →
      ∃ r ca, FullDrawOutcome.ok demoRenderer = .ok r ∧
        RenderCapture.init demoAxes r = .ok ca ∧
        (AxesCache.draw demoAxes (.ok demoRenderer) none).slot = some ca.1) :=
  claim6_full_draw_failure demoAxes .raises (.ok demoRenderer) rfl

theorem claim7_witness :
    (AxesCache.draw demoAxes .raises (some demoCap)).trace =
      .patch :: RenderCapture.draw demoAxes demoCap :: .xaxisDraw :: .yaxisDraw ::
        demoAxes.spines.map (fun s => .spineDraw s) ∧
    (AxesCache.draw demoAxes .raises (some demoCap)).trace.count .fullDraw = 0 ∧
    (AxesCache.draw demoAxes .raises (some demoCap)).err = none :=
  claim7_hit_draw_order demoAxes .raises (some demoCap) demoCap rfl

theorem claim9_witness :
    (AxesCache.draw demoAxes .raises (some demoCap)).slot = some demoCap ∧
    AxesCache.drawIter demoAxes .raises 3 (some demoCap) = some demoCap :=
  claim9_draw_no_side_effect demoAxes .raises 3 (some demoCap) demoCap rfl
